import Mathlib

/-!
Shallow embedding of `src/vmss-nmi.c` (TritonDataCenter/vmss): a tool that
walks a VMware suspended-state (VMSS) file, scans the tag-record stream of
every group named "cpu", and sets or clears the one-byte `pendingNMI` record
of a chosen CPU in place.

The file is a list of byte values (`List Nat`); the stdio cursor is an
explicit `Nat` position.  `fread` is all-or-nothing per call (the C code
treats every short read as fatal, so partial data never flows onward); a
zero-length `fread(ptr, 0, 1, fp)` returns 0 items and therefore also counts
as a failure at the `!= 1` checks, exactly as in C.  `fseek` succeeds exactly
when the resulting position is nonnegative; its 64-bit offset argument is the
unsigned 64-bit sum reinterpreted as a signed value, as on the LP64 targets
the tool is built for.  Multi-byte integers are little-endian, the producer's
(x86) byte order.
-/

namespace Vmss

/-- One `fread` of `n` bytes at cursor `pos`: delivers the bytes only when all
`n` are present, otherwise fails (short read). -/
def readBytes (data : List Nat) (pos n : Nat) : Option (List Nat) :=
  if pos + n ≤ data.length then some ((data.drop pos).take n) else none

/-- Little-endian value of a byte list. -/
def leVal : List Nat → Nat
  | [] => 0
  | b :: bs => b + 256 * leVal bs

/-- `VMSS_TAG_NAMELEN(t) = ((t) >> 8) & 0xff`. -/
def VMSS_TAG_NAMELEN (t : Nat) : Nat := (t >>> 8) &&& 0xff

/-- `VMSS_TAG_NINDX(t) = ((t) >> 6) & 3`. -/
def VMSS_TAG_NINDX (t : Nat) : Nat := (t >>> 6) &&& 3

/-- `VMSS_TAG_VALSIZE(t) = ((t) >> 0) & 0x3f`. -/
def VMSS_TAG_VALSIZE (t : Nat) : Nat := (t >>> 0) &&& 0x3f

/-- `VMSS_TAG_VALSIZE_BLOCK_COMPRESSED = 0x3e`. -/
def VMSS_TAG_VALSIZE_BLOCK_COMPRESSED : Nat := 0x3e

/-- `VMSS_TAG_VALSIZE_BLOCK = 0x3f`. -/
def VMSS_TAG_VALSIZE_BLOCK : Nat := 0x3f

/-- `VMSS_TAG_ISBLOCK(t)`: the value-size code is one of the two block codes. -/
def VMSS_TAG_ISBLOCK (t : Nat) : Bool :=
  VMSS_TAG_VALSIZE t == VMSS_TAG_VALSIZE_BLOCK_COMPRESSED ||
  VMSS_TAG_VALSIZE t == VMSS_TAG_VALSIZE_BLOCK

/-- The C string held in a byte buffer: the bytes up to the first NUL. -/
def cstr (bs : List Nat) : List Nat := bs.takeWhile (fun b => b != 0)

/-- The bytes of the literal string "pendingNMI". -/
def pendingNMI : List Nat := [112, 101, 110, 100, 105, 110, 103, 78, 77, 73]

/-- The bytes of the literal string "cpu". -/
def cpuName : List Nat := [99, 112, 117]

/-- Error classes of the tool's `fatal` exits, with the byte offset the
diagnostic reports where it reports one. -/
inductive Err
  | formatError
  | ioError (offset : Nat)
  | schemaViolation (size : Nat)
deriving DecidableEq

/-- The run-wide configuration the CLI layer leaves in the globals:
`g_cpu : int` (a CPU id, or -1 for the query / "don't alter" mode) and
`g_nmi : uint8_t` (the replacement byte, 1 to set, 0 to clear). -/
structure Config where
  cpu : Int
  nmi : Nat
deriving DecidableEq

/-- The value `i` takes when the C `int` `g_cpu` is converted to `uint32_t`
by the usual arithmetic conversions in `idx[0] != g_cpu`. -/
def uint32OfInt (i : Int) : Nat := (i % (2 ^ 32 : Int)).toNat

/-- Reinterpret an unsigned 64-bit value as the signed 64-bit (`long`)
argument passed to `fseek`. -/
def int64OfUInt64 (u : Nat) : Int :=
  if u < 2 ^ 63 then (u : Int) else (u : Int) - 2 ^ 64

/-- `fseek(fp, delta, SEEK_CUR)` with an unsigned 64-bit `delta`: fails when
the resulting position would be negative. -/
def seekCur (pos : Nat) (delta : Nat) : Option Nat :=
  let t : Int := (pos : Int) + int64OfUInt64 (delta % 2 ^ 64)
  if t < 0 then none else some t.toNat

/-- `fseek(fp, offs, SEEK_SET)` with an unsigned 64-bit `offs`: the offset is
passed through the signed `long` argument, so an offset at or above `2^63`
makes the seek fail. -/
def seekSet (offs : Nat) : Option Nat :=
  let t : Int := int64OfUInt64 (offs % 2 ^ 64)
  if t < 0 then none else some t.toNat

/-- `bzero(idx, sizeof (idx))` followed by
`fread(idx, sizeof (vmss_index_t), nindx, fp)`: on success the 3-entry index
array holds `nindx` little-endian 32-bit values and zero in the remaining
slots.  The read succeeds only when all `4 * nindx` bytes are present
(`fread` counts complete items; `nindx = 0` trivially succeeds). -/
def readIdx (data : List Nat) (pos nindx : Nat) : Option (List Nat) :=
  (readBytes data pos (4 * nindx)).map (fun bs =>
    (List.range 3).map (fun j =>
      if j < nindx then leVal ((bs.drop (4 * j)).take 4) else 0))

/-- Result of one iteration of the `setnmi` record loop. -/
inductive StepResult
  | done (data : List Nat)
  | cont (data : List Nat) (pos : Nat)
  | fatal (e : Err)
deriving DecidableEq

/-- One iteration of the `for (;;)` loop in `setnmi`, starting with the
cursor at `pos`: read a tag, stop on the zero terminator, read the name and
index array, then either skip a block, skip an unrelated inline value,
enforce the 1-byte shape of `pendingNMI`, and report or rewrite its byte. -/
def scanStep (cfg : Config) (data : List Nat) (pos : Nat) : StepResult :=
  match readBytes data pos 2 with
  | none => .fatal (.ioError pos)
  | some tagBytes =>
    let tag := leVal tagBytes
    let pos := pos + 2
    if tag = 0 then
      .done data
    else
      let len := VMSS_TAG_NAMELEN tag
      let nindx := VMSS_TAG_NINDX tag
      let size := VMSS_TAG_VALSIZE tag
      -- fread(name, len, 1, fp) != 1: fails on a short read, and also when
      -- len = 0, since fread with a zero size argument returns 0 items.
      if len = 0 then .fatal (.ioError pos)
      else
        match readBytes data pos len with
        | none => .fatal (.ioError pos)
        | some nameBytes =>
          let pos := pos + len
          let name := cstr nameBytes
          match readIdx data pos nindx with
          | none => .fatal (.ioError pos)
          | some idx =>
            let pos := pos + 4 * nindx
            if VMSS_TAG_ISBLOCK tag then
              -- blk is read as 8-byte size and 8-byte memsize, then the
              -- 2-byte pad separately; the payload is skipped, never read.
              match readBytes data pos 16 with
              | none => .fatal (.ioError pos)
              | some blkBytes =>
                match readBytes data (pos + 16) 2 with
                | none => .fatal (.ioError pos)
                | some padBytes =>
                  let bsize := leVal (blkBytes.take 8)
                  let pad := leVal padBytes
                  match seekCur (pos + 18) ((bsize + pad) % 2 ^ 64) with
                  | none => .fatal (.ioError pos)
                  | some pos2 => .cont data pos2
            else if name ≠ pendingNMI then
              -- fseek(fp, size, SEEK_CUR) with 0 ≤ size ≤ 61 always lands on
              -- a nonnegative position.
              .cont data (pos + size)
            else if size ≠ 1 then
              .fatal (.schemaViolation size)
            else
              match readBytes data pos size with
              | none => .fatal (.ioError pos)
              | some _ =>
                let pos := pos + size
                if idx.getD 0 0 ≠ uint32OfInt cfg.cpu then
                  -- both sub-branches (g_cpu == -1 report, and the
                  -- "skipping" report) only warn and continue: no mutation.
                  .cont data pos
                else
                  -- fseek(fp, -1, SEEK_CUR) back to the payload byte, then
                  -- fwrite one byte holding g_nmi.
                  .cont (data.set (pos - 1) cfg.nmi) pos

/-- The `for (;;)` loop of `setnmi`, driven by fuel; `none` means the fuel
ran out before the loop finished (never happens for adequate fuel, since
every iteration advances the cursor). -/
def scanLoop (cfg : Config) : Nat → List Nat → Nat → Option (Except Err (List Nat))
  | 0, _, _ => none
  | fuel + 1, data, pos =>
    match scanStep cfg data pos with
    | .done d => some (.ok d)
    | .fatal e => some (.error e)
    | .cont d p => scanLoop cfg fuel d p

/-- A `vmss_group_t` group-table entry: 64 name bytes, a 64-bit offset and a
64-bit size. -/
structure Group where
  nameBytes : List Nat
  offs : Nat
  size : Nat
deriving DecidableEq

/-- Decode one 80-byte group-table slice into a `vmss_group_t`. -/
def readGroup (bs : List Nat) : Group :=
  { nameBytes := bs.take 64
    offs := leVal ((bs.drop 64).take 8)
    size := leVal ((bs.drop 72).take 8) }

/-- `setnmi(fp, grp)`: seek to the group's offset and run the record loop. -/
def setnmi (cfg : Config) (fuel : Nat) (data : List Nat) (grp : Group) :
    Option (Except Err (List Nat)) :=
  match seekSet grp.offs with
  | none => some (.error (.ioError grp.offs))
  | some pos => scanLoop cfg fuel data pos

def VMSS_MAGIC_OLD : Nat := 0xbed0bed0
def VMSS_MAGIC_RESTORED : Nat := 0xbed1bed1
def VMSS_MAGIC : Nat := 0xbed2bed2
def VMSS_MAGIC_PARTIAL : Nat := 0xbed3bed3

/-- The group loop at the end of `process`: run `setnmi` on every group
whose name field compares equal to "cpu", threading the (possibly patched)
file through. -/
def processGroups (cfg : Config) (fuel : Nat) :
    List Group → List Nat → Option (Except Err (List Nat))
  | [], data => some (.ok data)
  | g :: gs, data =>
    if cstr g.nameBytes = cpuName then
      match setnmi cfg fuel data g with
      | none => none
      | some (.error e) => some (.error e)
      | some (.ok d) => processGroups cfg fuel gs d
    else
      processGroups cfg fuel gs data

/-- `process(filename)`: read the 12-byte header, check the magic, read the
group table, and scan every "cpu" group.  The deprecated 32-bit magic and
any unrecognized magic are fatal before the group table is touched. -/
def process (cfg : Config) (fuel : Nat) (data : List Nat) :
    Option (Except Err (List Nat)) :=
  match readBytes data 0 12 with
  | none => some (.error (.ioError 0))
  | some hdrBytes =>
    let id := leVal (hdrBytes.take 4)
    let ngroups := leVal ((hdrBytes.drop 8).take 4)
    if id = VMSS_MAGIC_OLD then
      some (.error .formatError)
    else if id = VMSS_MAGIC ∨ id = VMSS_MAGIC_RESTORED ∨ id = VMSS_MAGIC_PARTIAL then
      match readBytes data 12 (80 * ngroups) with
      | none => some (.error (.ioError 12))
      | some gbytes =>
        let groups := (List.range ngroups).map
          (fun i => readGroup ((gbytes.drop (80 * i)).take 80))
        processGroups cfg fuel groups data
    else
      some (.error .formatError)

/-! ## Basic facts about the embedded primitives -/

theorem readBytes_length {data : List Nat} {pos n bs : _}
    (h : readBytes data pos n = some bs) : bs.length = n := by
  unfold readBytes at h
  by_cases hle : pos + n ≤ data.length
  · rw [if_pos hle] at h
    injection h with h
    subst h
    simp only [List.length_take, List.length_drop]
    omega
  · rw [if_neg hle] at h
    cases h

theorem readBytes_le {data : List Nat} {pos n bs : _}
    (h : readBytes data pos n = some bs) : pos + n ≤ data.length := by
  unfold readBytes at h
  by_cases hle : pos + n ≤ data.length
  · exact hle
  · rw [if_neg hle] at h
    cases h

theorem take_set (l : List Nat) (n a : Nat) : (l.set n a).take n = l.take n := by
  induction l generalizing n with
  | nil => simp
  | cons b bs ih =>
    cases n with
    | zero => simp
    | succ m => simp [List.set, ih]

theorem drop_set (l : List Nat) (n a : Nat) :
    (l.set n a).drop (n + 1) = l.drop (n + 1) := by
  induction l generalizing n with
  | nil => simp
  | cons b bs ih =>
    cases n with
    | zero => simp
    | succ m => simpa using ih m

theorem VMSS_TAG_NAMELEN_eq (t : Nat) : VMSS_TAG_NAMELEN t = t / 2 ^ 8 % 2 ^ 8 := by
  unfold VMSS_TAG_NAMELEN
  rw [show (0xff : Nat) = 2 ^ 8 - 1 by norm_num, Nat.and_pow_two_sub_one_eq_mod,
    Nat.shiftRight_eq_div_pow]

theorem VMSS_TAG_NINDX_eq (t : Nat) : VMSS_TAG_NINDX t = t / 2 ^ 6 % 2 ^ 2 := by
  unfold VMSS_TAG_NINDX
  rw [show (3 : Nat) = 2 ^ 2 - 1 by norm_num, Nat.and_pow_two_sub_one_eq_mod,
    Nat.shiftRight_eq_div_pow]

theorem VMSS_TAG_VALSIZE_eq (t : Nat) : VMSS_TAG_VALSIZE t = t % 2 ^ 6 := by
  unfold VMSS_TAG_VALSIZE
  rw [show (0x3f : Nat) = 2 ^ 6 - 1 by norm_num, Nat.and_pow_two_sub_one_eq_mod,
    Nat.shiftRight_eq_div_pow]
  norm_num

theorem VMSS_TAG_NAMELEN_le (t : Nat) : VMSS_TAG_NAMELEN t ≤ 255 := by
  rw [VMSS_TAG_NAMELEN_eq]; omega

theorem VMSS_TAG_NINDX_le (t : Nat) : VMSS_TAG_NINDX t ≤ 3 := by
  rw [VMSS_TAG_NINDX_eq]; omega

theorem VMSS_TAG_VALSIZE_le (t : Nat) : VMSS_TAG_VALSIZE t ≤ 63 := by
  rw [VMSS_TAG_VALSIZE_eq]; omega

/-- A name buffer whose C string compares equal to "pendingNMI" came from a
nonzero name length (the string has 10 bytes, all read from the file). -/
theorem namelen_ne_zero {t : Nat} {data : List Nat} {pos : Nat} {nb : List Nat}
    (hnb : readBytes data pos (VMSS_TAG_NAMELEN t) = some nb)
    (hname : cstr nb = pendingNMI) : VMSS_TAG_NAMELEN t ≠ 0 := by
  have h1 : nb.length = VMSS_TAG_NAMELEN t := readBytes_length hnb
  have h2 : (cstr nb).length ≤ nb.length := (List.takeWhile_sublist _).length_le
  rw [hname] at h2
  simp only [pendingNMI, List.length_cons, List.length_nil] at h2
  omega

/-! ## Claim theorems -/

/-- C5: reading a 16-bit tag code equal to zero terminates the group's record
stream immediately: the scanner returns to its caller with the file untouched,
regardless of how many bytes remain after `pos` (no hypothesis bounds
`data.length`). -/
theorem zero_tag_terminates_stream (cfg : Config) (fuel : Nat) (data : List Nat)
    (pos : Nat) (tb : List Nat)
    (htb : readBytes data pos 2 = some tb) (ht : leVal tb = 0) :
    scanLoop cfg (fuel + 1) data pos = some (.ok data) := by
  have hstep : scanStep cfg data pos = .done data := by
    unfold scanStep
    rw [htb]
    simp [ht]
  simp [scanLoop, hstep]

theorem zero_tag_terminates_stream_witness :
    scanLoop ⟨-1, 1⟩ 1 [0, 0, 7, 7, 7] 0 = some (.ok [0, 0, 7, 7, 7]) :=
  zero_tag_terminates_stream ⟨-1, 1⟩ 0 [0, 0, 7, 7, 7] 0 [0, 0] (by rfl) (by rfl)

/-- C6: the Tag Header Codec is a pure, total decomposition of the 16-bit tag
code: the name length is bits 8–15 (at most 255), the index count is bits 6–7
(at most 3), and the value-size code is bits 0–5 (at most 63), with the two
reserved codes 0x3e (compressed block) and 0x3f (block) recognized by
`VMSS_TAG_ISBLOCK`.  No error conditions exist: the equations hold for every
code. -/
theorem tag_codec_bitfields (t : Nat) :
    VMSS_TAG_NAMELEN t = t / 2 ^ 8 % 2 ^ 8 ∧ VMSS_TAG_NAMELEN t ≤ 255 ∧
    VMSS_TAG_NINDX t = t / 2 ^ 6 % 2 ^ 2 ∧ VMSS_TAG_NINDX t ≤ 3 ∧
    VMSS_TAG_VALSIZE t = t % 2 ^ 6 ∧ VMSS_TAG_VALSIZE t ≤ 63 ∧
    (VMSS_TAG_ISBLOCK t = true ↔
      VMSS_TAG_VALSIZE t = VMSS_TAG_VALSIZE_BLOCK_COMPRESSED ∨
      VMSS_TAG_VALSIZE t = VMSS_TAG_VALSIZE_BLOCK) := by
  refine ⟨VMSS_TAG_NAMELEN_eq t, VMSS_TAG_NAMELEN_le t, VMSS_TAG_NINDX_eq t,
    VMSS_TAG_NINDX_le t, VMSS_TAG_VALSIZE_eq t, VMSS_TAG_VALSIZE_le t, ?_⟩
  unfold VMSS_TAG_ISBLOCK
  simp [VMSS_TAG_VALSIZE_BLOCK_COMPRESSED, VMSS_TAG_VALSIZE_BLOCK]

/-- C9: a non-terminator tag whose decoded name length is zero makes the
scanner abort with an IOError-class fatal at the name-read step, because
`fread(name, 0, 1, fp)` returns 0 items and the `!= 1` check treats that as a
failed read.  No hypothesis bounds `data.length`: the abort happens however
many bytes remain, i.e. even though no read actually fell short. -/
theorem zero_length_name_read_fatal (cfg : Config) (fuel : Nat) (data : List Nat)
    (pos : Nat) (tb : List Nat) (t : Nat)
    (htb : readBytes data pos 2 = some tb) (ht : leVal tb = t) (h0 : t ≠ 0)
    (hlen : VMSS_TAG_NAMELEN t = 0) :
    scanLoop cfg (fuel + 1) data pos = some (.error (.ioError (pos + 2))) := by
  have hstep : scanStep cfg data pos = .fatal (.ioError (pos + 2)) := by
    unfold scanStep
    rw [htb]
    simp [ht, h0, hlen]
  simp [scanLoop, hstep]

theorem zero_length_name_read_fatal_witness :
    scanLoop ⟨-1, 1⟩ 1 [1, 0, 9, 9, 9, 9] 0 = some (.error (.ioError 2)) :=
  zero_length_name_read_fatal ⟨-1, 1⟩ 0 [1, 0, 9, 9, 9, 9] 0 [1, 0] 1
    (by rfl) (by rfl) (by decide) (by decide)

/-- C10: every fixed-capacity buffer access stays in bounds: the name read of
`nameLen` bytes plus the NUL terminator written at position `nameLen` fit in
the 256-byte `name` buffer because `nameLen ≤ 255`, and the decoded index
array has exactly the 3 slots of the C `idx` array, with the slots past
`nIndex ≤ 3` zeroed by the preceding `bzero`. -/
theorem buffer_accesses_in_bounds (t : Nat) (data : List Nat) (pos : Nat)
    (idx : List Nat)
    (hidx : readIdx data pos (VMSS_TAG_NINDX t) = some idx) :
    VMSS_TAG_NAMELEN t + 1 ≤ 256 ∧ VMSS_TAG_NINDX t ≤ 3 ∧ idx.length = 3 ∧
    idx.drop (VMSS_TAG_NINDX t) = List.replicate (3 - VMSS_TAG_NINDX t) 0 := by
  have hn255 := VMSS_TAG_NAMELEN_le t
  have hi3 := VMSS_TAG_NINDX_le t
  obtain ⟨bs, hbs, hmap⟩ := Option.map_eq_some'.mp hidx
  refine ⟨by omega, hi3, ?_, ?_⟩
  · rw [← hmap]; simp
  · rw [← hmap]
    set n := VMSS_TAG_NINDX t with hn
    interval_cases n <;> simp [List.range_succ]

theorem scanLoop_of_fatal {cfg : Config} {fuel : Nat} {data : List Nat} {pos : Nat}
    {e : Err} (h : scanStep cfg data pos = .fatal e) :
    scanLoop cfg (fuel + 1) data pos = some (.error e) := by
  simp [scanLoop, h]

/-- A relative forward seek below `2^63` always succeeds and lands exactly
`d` bytes further. -/
theorem seekCur_of_lt (pos d : Nat) (h : d < 2 ^ 63) :
    seekCur pos d = some (pos + d) := by
  simp only [seekCur, int64OfUInt64]
  rw [Nat.mod_eq_of_lt (by omega), if_pos h,
    if_neg (by omega : ¬((pos : Int) + (d : Int) < 0))]
  congr 1

/-- Reduction of one scanner iteration at an inline (non-block) record named
"pendingNMI" of value size 1: after the value byte is read the step either
reports (no mutation) or seeks back one byte and rewrites exactly the payload
byte, depending on the `idx[0] != g_cpu` comparison. -/
theorem scanStep_pending (cfg : Config) (data : List Nat) (pos : Nat)
    (tb nb idx vb : List Nat) (t : Nat)
    (htb : readBytes data pos 2 = some tb) (ht : leVal tb = t) (h0 : t ≠ 0)
    (hnb : readBytes data (pos + 2) (VMSS_TAG_NAMELEN t) = some nb)
    (hname : cstr nb = pendingNMI)
    (hidx : readIdx data (pos + 2 + VMSS_TAG_NAMELEN t) (VMSS_TAG_NINDX t) = some idx)
    (hblk : VMSS_TAG_ISBLOCK t = false)
    (hsz : VMSS_TAG_VALSIZE t = 1)
    (hvb : readBytes data (pos + 2 + VMSS_TAG_NAMELEN t + 4 * VMSS_TAG_NINDX t) 1 =
      some vb) :
    scanStep cfg data pos =
      if idx.getD 0 0 ≠ uint32OfInt cfg.cpu then
        StepResult.cont data (pos + 2 + VMSS_TAG_NAMELEN t + 4 * VMSS_TAG_NINDX t + 1)
      else
        StepResult.cont
          (data.set (pos + 2 + VMSS_TAG_NAMELEN t + 4 * VMSS_TAG_NINDX t) cfg.nmi)
          (pos + 2 + VMSS_TAG_NAMELEN t + 4 * VMSS_TAG_NINDX t + 1) := by
  have hlen := namelen_ne_zero hnb hname
  unfold scanStep
  simp only [htb, ht, hnb, hidx, hname, hblk, hsz, hvb]
  rw [if_neg h0, if_neg hlen]
  simp

/-- Reduction of one scanner iteration at a block-coded record with declared
size `S` and pad `P`, when `S + P` fits the signed range of the skip-seek:
the cursor ends exactly 18 header bytes plus `S + P` past the index array,
and the file is returned unchanged.  The hypotheses constrain only the
record's header bytes, so the result is the same whatever the skipped
payload holds: no payload byte is read or inspected. -/
theorem scanStep_block (cfg : Config) (data : List Nat) (pos : Nat)
    (tb nb idx bb pb : List Nat) (t S P : Nat)
    (htb : readBytes data pos 2 = some tb) (ht : leVal tb = t) (h0 : t ≠ 0)
    (hlen : VMSS_TAG_NAMELEN t ≠ 0)
    (hnb : readBytes data (pos + 2) (VMSS_TAG_NAMELEN t) = some nb)
    (hidx : readIdx data (pos + 2 + VMSS_TAG_NAMELEN t) (VMSS_TAG_NINDX t) = some idx)
    (hblk : VMSS_TAG_ISBLOCK t = true)
    (hbb : readBytes data (pos + 2 + VMSS_TAG_NAMELEN t + 4 * VMSS_TAG_NINDX t) 16 =
      some bb)
    (hpb : readBytes data (pos + 2 + VMSS_TAG_NAMELEN t + 4 * VMSS_TAG_NINDX t + 16) 2 =
      some pb)
    (hS : leVal (bb.take 8) = S) (hP : leVal pb = P) (hlt : S + P < 2 ^ 63) :
    scanStep cfg data pos =
      StepResult.cont data
        (pos + 2 + VMSS_TAG_NAMELEN t + 4 * VMSS_TAG_NINDX t + 18 + (S + P)) := by
  unfold scanStep
  simp only [htb, ht, hnb, hidx, hblk, hbb, hpb, hS, hP]
  rw [if_neg h0, if_neg hlen,
    Nat.mod_eq_of_lt (show S + P < 2 ^ 64 by omega), seekCur_of_lt _ _ hlt]
  simp

theorem buffer_accesses_in_bounds_witness :
    VMSS_TAG_NAMELEN 65535 + 1 ≤ 256 ∧ VMSS_TAG_NINDX 65535 ≤ 3 ∧
    ([117901063, 117901063, 117901063] : List Nat).length = 3 ∧
    ([117901063, 117901063, 117901063] : List Nat).drop (VMSS_TAG_NINDX 65535) =
      List.replicate (3 - VMSS_TAG_NINDX 65535) 0 :=
  buffer_accesses_in_bounds 65535 (List.replicate 12 7) 0
    [117901063, 117901063, 117901063] (by rfl)

/-- C1: in targeted write mode (`g_cpu = K ≥ 0`, a valid CPU id), a
`pendingNMI` record whose `index[0]` equals `K` has exactly its one payload
byte rewritten to the configured replacement `g_nmi`: the length is
preserved, every byte before the payload offset and every byte after it —
including the record's tag code, name and indices — is unchanged, and the
payload byte now holds `g_nmi`.  A `pendingNMI` record whose `index[0]`
differs from `K` leaves the file completely unmutated (the step returns the
input bytes). -/
theorem targeted_write_exact_one_byte (cfg : Config) (data : List Nat) (pos : Nat)
    (tb nb idx vb : List Nat) (t K : Nat)
    (htb : readBytes data pos 2 = some tb) (ht : leVal tb = t) (h0 : t ≠ 0)
    (hnb : readBytes data (pos + 2) (VMSS_TAG_NAMELEN t) = some nb)
    (hname : cstr nb = pendingNMI)
    (hidx : readIdx data (pos + 2 + VMSS_TAG_NAMELEN t) (VMSS_TAG_NINDX t) = some idx)
    (hblk : VMSS_TAG_ISBLOCK t = false)
    (hsz : VMSS_TAG_VALSIZE t = 1)
    (hvb : readBytes data (pos + 2 + VMSS_TAG_NAMELEN t + 4 * VMSS_TAG_NINDX t) 1 =
      some vb)
    (hcpu : cfg.cpu = (K : Int)) (hK : K < 2 ^ 32) :
    (idx.getD 0 0 = K →
      scanStep cfg data pos =
        StepResult.cont
          (data.set (pos + 2 + VMSS_TAG_NAMELEN t + 4 * VMSS_TAG_NINDX t) cfg.nmi)
          (pos + 2 + VMSS_TAG_NAMELEN t + 4 * VMSS_TAG_NINDX t + 1) ∧
      (data.set (pos + 2 + VMSS_TAG_NAMELEN t + 4 * VMSS_TAG_NINDX t) cfg.nmi).length =
        data.length ∧
      (data.set (pos + 2 + VMSS_TAG_NAMELEN t + 4 * VMSS_TAG_NINDX t) cfg.nmi).take
          (pos + 2 + VMSS_TAG_NAMELEN t + 4 * VMSS_TAG_NINDX t) =
        data.take (pos + 2 + VMSS_TAG_NAMELEN t + 4 * VMSS_TAG_NINDX t) ∧
      (data.set (pos + 2 + VMSS_TAG_NAMELEN t + 4 * VMSS_TAG_NINDX t) cfg.nmi).drop
          (pos + 2 + VMSS_TAG_NAMELEN t + 4 * VMSS_TAG_NINDX t + 1) =
        data.drop (pos + 2 + VMSS_TAG_NAMELEN t + 4 * VMSS_TAG_NINDX t + 1) ∧
      (data.set (pos + 2 + VMSS_TAG_NAMELEN t + 4 * VMSS_TAG_NINDX t)
          cfg.nmi)[pos + 2 + VMSS_TAG_NAMELEN t + 4 * VMSS_TAG_NINDX t]? =
        some cfg.nmi) ∧
    (idx.getD 0 0 ≠ K →
      scanStep cfg data pos =
        StepResult.cont data
          (pos + 2 + VMSS_TAG_NAMELEN t + 4 * VMSS_TAG_NINDX t + 1)) := by
  have hred := scanStep_pending cfg data pos tb nb idx vb t htb ht h0 hnb hname
    hidx hblk hsz hvb
  have hu32 : uint32OfInt cfg.cpu = K := by
    unfold uint32OfInt
    rw [hcpu, Int.emod_eq_of_lt (by positivity) (by exact_mod_cast hK)]
    simp
  have hq : pos + 2 + VMSS_TAG_NAMELEN t + 4 * VMSS_TAG_NINDX t + 1 ≤ data.length :=
    readBytes_le hvb
  rw [hu32] at hred
  constructor
  · intro hmatch
    rw [if_neg (not_not_intro hmatch)] at hred
    refine ⟨hred, List.length_set data _ _, take_set data _ _, drop_set data _ _, ?_⟩
    exact List.getElem?_set_self (by omega)
  · intro hne
    rw [if_pos hne] at hred
    exact hred

theorem targeted_write_exact_one_byte_witness :
    scanStep ⟨5, 1⟩
        [65, 10, 112, 101, 110, 100, 105, 110, 103, 78, 77, 73, 5, 0, 0, 0, 0, 0, 0] 0 =
      StepResult.cont
        ([65, 10, 112, 101, 110, 100, 105, 110, 103, 78, 77, 73, 5, 0, 0, 0, 0, 0, 0].set
          16 1) 17 ∧
    ([65, 10, 112, 101, 110, 100, 105, 110, 103, 78, 77, 73, 5, 0, 0, 0, 0, 0, 0].set
        16 1).length =
      [65, 10, 112, 101, 110, 100, 105, 110, 103, 78, 77, 73, 5, 0, 0, 0, 0, 0, 0].length ∧
    ([65, 10, 112, 101, 110, 100, 105, 110, 103, 78, 77, 73, 5, 0, 0, 0, 0, 0, 0].set
        16 1).take 16 =
      [65, 10, 112, 101, 110, 100, 105, 110, 103, 78, 77, 73, 5, 0, 0, 0, 0, 0, 0].take 16 ∧
    ([65, 10, 112, 101, 110, 100, 105, 110, 103, 78, 77, 73, 5, 0, 0, 0, 0, 0, 0].set
        16 1).drop 17 =
      [65, 10, 112, 101, 110, 100, 105, 110, 103, 78, 77, 73, 5, 0, 0, 0, 0, 0, 0].drop 17 ∧
    ([65, 10, 112, 101, 110, 100, 105, 110, 103, 78, 77, 73, 5, 0, 0, 0, 0, 0, 0].set
        16 1)[16]? = some 1 :=
  (targeted_write_exact_one_byte ⟨5, 1⟩
    [65, 10, 112, 101, 110, 100, 105, 110, 103, 78, 77, 73, 5, 0, 0, 0, 0, 0, 0] 0
    [65, 10] [112, 101, 110, 100, 105, 110, 103, 78, 77, 73] [5, 0, 0] [0] 2625 5
    (by rfl) (by rfl) (by decide) (by rfl) (by rfl) (by rfl) (by rfl) (by rfl)
    (by rfl) (by rfl) (by norm_num)).1 (by rfl)

/-- C2 (code bug): query mode is `g_cpu = -1` (`-n`, documented in the usage
text as "Display but don't alter pendingNMI"), yet the comparison
`idx[0] != g_cpu` promotes `g_cpu` to `uint32_t`, where `-1` becomes
`0xFFFFFFFF`.  A `pendingNMI` record with `index[0] = 0xFFFFFFFF` therefore
fails the inequality, falls through to the write path, and has its payload
byte overwritten even in query mode.  Concretely: a "cpu" group holding one
`pendingNMI` record with `index[0] = 0xFFFFFFFF` and current value 0 is run
in query mode (`g_cpu = -1`, default `g_nmi = 1`); the run completes
normally but the payload byte at offset 16 has been rewritten to 1, so the
file is not byte-for-byte identical to the input. -/
theorem query_mode_mutates_max_cpu_index :
    scanLoop ⟨-1, 1⟩ 2
        [65, 10, 112, 101, 110, 100, 105, 110, 103, 78, 77, 73,
         255, 255, 255, 255, 0, 0, 0] 0 =
      some (.ok
        ([65, 10, 112, 101, 110, 100, 105, 110, 103, 78, 77, 73,
          255, 255, 255, 255, 0, 0, 0].set 16 1)) ∧
    ([65, 10, 112, 101, 110, 100, 105, 110, 103, 78, 77, 73,
      255, 255, 255, 255, 0, 0, 0].set 16 1) ≠
      [65, 10, 112, 101, 110, 100, 105, 110, 103, 78, 77, 73,
       255, 255, 255, 255, 0, 0, 0] :=
  ⟨by rfl, by decide⟩

/-- C3 counterexample: a block-coded record named `pendingNMI` (tag code
0x0A3F: name length 10, zero indices, value-size code 0x3f = block) with a
0-byte block — so a record named `pendingNMI` whose value size is not 1 —
is dispatched to the block skipper at line 192 before the name is ever
compared, and the scan completes successfully: the run does NOT terminate
with a SchemaViolation-class error, and the record is silently skipped. -/
theorem block_pendingNMI_silently_skipped :
    scanLoop ⟨-1, 1⟩ 2
        ([63, 10] ++ pendingNMI ++ List.replicate 16 0 ++ [0, 0] ++ [0, 0]) 0 =
      some (.ok
        ([63, 10] ++ pendingNMI ++ List.replicate 16 0 ++ [0, 0] ++ [0, 0])) := by
  rfl

/-- C3 (amended): for every INLINE (non-block) record named `pendingNMI`, a
value size other than 1 terminates the run with a SchemaViolation-class
fatal error carrying the offending size; such a record is never silently
skipped.  (Block-coded records are dispatched to the block skipper before
the name comparison, so a block-coded record named `pendingNMI` is skipped
without any size check — see the counterexample.) -/
theorem inline_pendingNMI_bad_size_fatal (cfg : Config) (fuel : Nat)
    (data : List Nat) (pos : Nat) (tb nb idx : List Nat) (t : Nat)
    (htb : readBytes data pos 2 = some tb) (ht : leVal tb = t) (h0 : t ≠ 0)
    (hnb : readBytes data (pos + 2) (VMSS_TAG_NAMELEN t) = some nb)
    (hname : cstr nb = pendingNMI)
    (hidx : readIdx data (pos + 2 + VMSS_TAG_NAMELEN t) (VMSS_TAG_NINDX t) = some idx)
    (hblk : VMSS_TAG_ISBLOCK t = false)
    (hsz : VMSS_TAG_VALSIZE t ≠ 1) :
    scanLoop cfg (fuel + 1) data pos =
      some (.error (.schemaViolation (VMSS_TAG_VALSIZE t))) := by
  have hlen := namelen_ne_zero hnb hname
  refine scanLoop_of_fatal ?_
  unfold scanStep
  simp only [htb, ht, hnb, hidx, hname, hblk]
  rw [if_neg h0, if_neg hlen]
  simp [hsz]

theorem inline_pendingNMI_bad_size_fatal_witness :
    scanLoop ⟨-1, 1⟩ 1 ([2, 10] ++ pendingNMI) 0 =
      some (.error (.schemaViolation 2)) :=
  inline_pendingNMI_bad_size_fatal ⟨-1, 1⟩ 0 ([2, 10] ++ pendingNMI) 0
    [2, 10] pendingNMI [0, 0, 0] 2562
    (by rfl) (by rfl) (by decide) (by rfl) (by rfl) (by rfl) (by rfl) (by decide)

/-- C4 counterexample: a block-coded tag (code 0x013F: name length 1, zero
indices, block) whose declared size field holds `2^63` (bytes
00 00 00 00 00 00 00 80) and pad 0.  The claim, as stated for every declared
size `S`, requires the cursor to land at `3 + 18 + 2^63`; instead the skip
`fseek(fp, blk.vmss_block_size + pad, SEEK_CUR)` receives `2^63`, which as
the signed 64-bit `long` argument is negative, the seek fails, and the step
aborts with an IOError at offset 3 — the cursor never reaches the claimed
position. -/
theorem block_skip_overflow_aborts :
    scanStep ⟨-1, 1⟩
        ([63, 1, 120] ++ [0, 0, 0, 0, 0, 0, 0, 128] ++ List.replicate 8 0 ++ [0, 0]) 0 =
      .fatal (.ioError 3) := by
  rfl

/-- C4 (amended): for every block-coded tag with declared block size `S` and
pad `P` such that `S + P < 2^63` (so the unsigned 64-bit sum is a
nonnegative signed seek offset), processing the block leaves the cursor
exactly at (cursor before the block header) + 18 + S + P: the 8-byte size,
8-byte memory-size and 2-byte pad are read as separate sequential fields and
the payload is skipped by a relative seek of S + P.  The hypotheses pin only
the record's header bytes, so the result — and the unchanged file it
returns — is the same whatever the payload bytes hold: no byte inside the
block payload range is read or inspected.  For `S + P ≥ 2^63` the skip-seek
fails and the run aborts instead (see the counterexample). -/
theorem block_skip_advances_cursor (cfg : Config) (data : List Nat) (pos : Nat)
    (tb nb idx bb pb : List Nat) (t S P : Nat)
    (htb : readBytes data pos 2 = some tb) (ht : leVal tb = t) (h0 : t ≠ 0)
    (hlen : VMSS_TAG_NAMELEN t ≠ 0)
    (hnb : readBytes data (pos + 2) (VMSS_TAG_NAMELEN t) = some nb)
    (hidx : readIdx data (pos + 2 + VMSS_TAG_NAMELEN t) (VMSS_TAG_NINDX t) = some idx)
    (hblk : VMSS_TAG_ISBLOCK t = true)
    (hbb : readBytes data (pos + 2 + VMSS_TAG_NAMELEN t + 4 * VMSS_TAG_NINDX t) 16 =
      some bb)
    (hpb : readBytes data (pos + 2 + VMSS_TAG_NAMELEN t + 4 * VMSS_TAG_NINDX t + 16) 2 =
      some pb)
    (hS : leVal (bb.take 8) = S) (hP : leVal pb = P) (hlt : S + P < 2 ^ 63) :
    scanStep cfg data pos =
      StepResult.cont data
        (pos + 2 + VMSS_TAG_NAMELEN t + 4 * VMSS_TAG_NINDX t + 18 + (S + P)) :=
  scanStep_block cfg data pos tb nb idx bb pb t S P htb ht h0 hlen hnb hidx hblk
    hbb hpb hS hP hlt

theorem block_skip_advances_cursor_witness :
    scanStep ⟨-1, 1⟩
        ([63, 1, 120] ++ [5, 0, 0, 0, 0, 0, 0, 0] ++ List.replicate 8 0 ++ [2, 0] ++
          List.replicate 7 9) 0 =
      StepResult.cont
        ([63, 1, 120] ++ [5, 0, 0, 0, 0, 0, 0, 0] ++ List.replicate 8 0 ++ [2, 0] ++
          List.replicate 7 9) 28 :=
  block_skip_advances_cursor ⟨-1, 1⟩
    ([63, 1, 120] ++ [5, 0, 0, 0, 0, 0, 0, 0] ++ List.replicate 8 0 ++ [2, 0] ++
      List.replicate 7 9) 0
    [63, 1] [120] [0, 0, 0] ([5, 0, 0, 0, 0, 0, 0, 0] ++ List.replicate 8 0) [2, 0]
    319 5 2
    (by rfl) (by rfl) (by decide) (by decide) (by rfl) (by rfl) (by rfl) (by rfl)
    (by rfl) (by rfl) (by rfl) (by norm_num)

/-- C7: a container whose magic is the deprecated 32-bit variant
(`VMSS_MAGIC_OLD`), or any magic outside the four enumerated constants,
makes `process` fail with a FormatError-class fatal error.  The bytes after
the 12-byte header are universally quantified and never looked at, so the
failure happens before any group table entry is read. -/
theorem bad_magic_fatal_before_groups (cfg : Config) (fuel : Nat)
    (hdr rest : List Nat) (hlen : hdr.length = 12)
    (hmagic : leVal (hdr.take 4) = VMSS_MAGIC_OLD ∨
      (leVal (hdr.take 4) ≠ VMSS_MAGIC_OLD ∧ leVal (hdr.take 4) ≠ VMSS_MAGIC ∧
       leVal (hdr.take 4) ≠ VMSS_MAGIC_RESTORED ∧
       leVal (hdr.take 4) ≠ VMSS_MAGIC_PARTIAL)) :
    process cfg fuel (hdr ++ rest) = some (.error .formatError) := by
  have hread : readBytes (hdr ++ rest) 0 12 = some hdr := by
    unfold readBytes
    rw [if_pos (by simp [hlen])]
    rw [List.drop_zero, ← hlen, List.take_left]
  unfold process
  simp only [hread]
  rcases hmagic with hold | ⟨h1, h2, h3, h4⟩
  · simp [hold]
  · rw [if_neg h1, if_neg (by tauto)]

theorem bad_magic_fatal_before_groups_witness :
    process ⟨-1, 1⟩ 1
        ([208, 190, 208, 190, 0, 0, 0, 0, 1, 0, 0, 0] ++ [1, 2, 3]) =
      some (.error .formatError) :=
  bad_magic_fatal_before_groups ⟨-1, 1⟩ 1
    [208, 190, 208, 190, 0, 0, 0, 0, 1, 0, 0, 0] [1, 2, 3]
    (by rfl) (Or.inl (by rfl))

/-- C8: at every step of the record scanner — tag-code read, name read,
index read, block size/memsize read, block pad read, value read — a short
read (the file holds fewer bytes than the step requests) terminates the
entire run: the loop immediately returns an IOError-class fatal carrying a
byte offset, for any remaining fuel, so no partial-record recovery or
resynchronization is ever attempted.  Each conjunct assumes the reads of the
preceding steps succeeded (that is how the scanner reaches the step) and the
failing read delivered fewer bytes than requested (`readBytes … = none`). -/
theorem short_read_any_step_fatal (cfg : Config) (fuel : Nat) (data : List Nat)
    (pos : Nat) :
    (readBytes data pos 2 = none →
      scanLoop cfg (fuel + 1) data pos = some (.error (.ioError pos))) ∧
    (∀ tb t, readBytes data pos 2 = some tb → leVal tb = t → t ≠ 0 →
      VMSS_TAG_NAMELEN t ≠ 0 →
      readBytes data (pos + 2) (VMSS_TAG_NAMELEN t) = none →
      scanLoop cfg (fuel + 1) data pos = some (.error (.ioError (pos + 2)))) ∧
    (∀ tb t nb, readBytes data pos 2 = some tb → leVal tb = t → t ≠ 0 →
      VMSS_TAG_NAMELEN t ≠ 0 →
      readBytes data (pos + 2) (VMSS_TAG_NAMELEN t) = some nb →
      readIdx data (pos + 2 + VMSS_TAG_NAMELEN t) (VMSS_TAG_NINDX t) = none →
      scanLoop cfg (fuel + 1) data pos =
        some (.error (.ioError (pos + 2 + VMSS_TAG_NAMELEN t)))) ∧
    (∀ tb t nb idx, readBytes data pos 2 = some tb → leVal tb = t → t ≠ 0 →
      VMSS_TAG_NAMELEN t ≠ 0 →
      readBytes data (pos + 2) (VMSS_TAG_NAMELEN t) = some nb →
      readIdx data (pos + 2 + VMSS_TAG_NAMELEN t) (VMSS_TAG_NINDX t) = some idx →
      VMSS_TAG_ISBLOCK t = true →
      readBytes data (pos + 2 + VMSS_TAG_NAMELEN t + 4 * VMSS_TAG_NINDX t) 16 = none →
      scanLoop cfg (fuel + 1) data pos =
        some (.error (.ioError (pos + 2 + VMSS_TAG_NAMELEN t + 4 * VMSS_TAG_NINDX t)))) ∧
    (∀ tb t nb idx bb, readBytes data pos 2 = some tb → leVal tb = t → t ≠ 0 →
      VMSS_TAG_NAMELEN t ≠ 0 →
      readBytes data (pos + 2) (VMSS_TAG_NAMELEN t) = some nb →
      readIdx data (pos + 2 + VMSS_TAG_NAMELEN t) (VMSS_TAG_NINDX t) = some idx →
      VMSS_TAG_ISBLOCK t = true →
      readBytes data (pos + 2 + VMSS_TAG_NAMELEN t + 4 * VMSS_TAG_NINDX t) 16 =
        some bb →
      readBytes data (pos + 2 + VMSS_TAG_NAMELEN t + 4 * VMSS_TAG_NINDX t + 16) 2 =
        none →
      scanLoop cfg (fuel + 1) data pos =
        some (.error (.ioError (pos + 2 + VMSS_TAG_NAMELEN t + 4 * VMSS_TAG_NINDX t)))) ∧
    (∀ tb t nb idx, readBytes data pos 2 = some tb → leVal tb = t → t ≠ 0 →
      VMSS_TAG_NAMELEN t ≠ 0 →
      readBytes data (pos + 2) (VMSS_TAG_NAMELEN t) = some nb →
      readIdx data (pos + 2 + VMSS_TAG_NAMELEN t) (VMSS_TAG_NINDX t) = some idx →
      VMSS_TAG_ISBLOCK t = false → cstr nb = pendingNMI → VMSS_TAG_VALSIZE t = 1 →
      readBytes data (pos + 2 + VMSS_TAG_NAMELEN t + 4 * VMSS_TAG_NINDX t) 1 = none →
      scanLoop cfg (fuel + 1) data pos =
        some (.error (.ioError (pos + 2 + VMSS_TAG_NAMELEN t + 4 * VMSS_TAG_NINDX t)))) := by
  refine ⟨?_, ?_, ?_, ?_, ?_, ?_⟩
  · intro h
    refine scanLoop_of_fatal ?_
    unfold scanStep
    simp only [h]
  · intro tb t htb ht h0 hlen hnb
    refine scanLoop_of_fatal ?_
    unfold scanStep
    simp only [htb, ht, hnb]
    rw [if_neg h0, if_neg hlen]
  · intro tb t nb htb ht h0 hlen hnb hidx
    refine scanLoop_of_fatal ?_
    unfold scanStep
    simp only [htb, ht, hnb, hidx]
    rw [if_neg h0, if_neg hlen]
  · intro tb t nb idx htb ht h0 hlen hnb hidx hblk hbb
    refine scanLoop_of_fatal ?_
    unfold scanStep
    simp only [htb, ht, hnb, hidx, hblk, hbb]
    rw [if_neg h0, if_neg hlen]
    simp
  · intro tb t nb idx bb htb ht h0 hlen hnb hidx hblk hbb hpb
    refine scanLoop_of_fatal ?_
    unfold scanStep
    simp only [htb, ht, hnb, hidx, hblk, hbb, hpb]
    rw [if_neg h0, if_neg hlen]
    simp
  · intro tb t nb idx htb ht h0 hlen hnb hidx hblk hname hsz hvb
    refine scanLoop_of_fatal ?_
    unfold scanStep
    simp only [htb, ht, hnb, hidx, hblk, hname, hsz, hvb]
    rw [if_neg h0, if_neg hlen]
    simp

theorem short_read_any_step_fatal_witness :
    scanLoop ⟨-1, 1⟩ 1 [5] 0 = some (.error (.ioError 0)) :=
  (short_read_any_step_fatal ⟨-1, 1⟩ 0 [5] 0).1 (by rfl)

end Vmss
